import Mathlib

/-!
Verification of the protocol-sniffing relay engine of the vortex worker.

The definitions below are shallow embeddings of the JavaScript source:
buffers (`ArrayBuffer`/`Uint8Array`) become `List Nat` of byte values,
`DataView.getUint8/getUint16` become `Option`-valued reads that model the
`RangeError` thrown on an out-of-bounds read (caught by the surrounding
`try`/`catch` in the source, producing the parser's failure object),
`ArrayBuffer.slice` becomes a truncating take/drop exactly like the
JavaScript method, and `TextDecoder.decode` becomes a UTF-8 decoder with
replacement characters.
-/

namespace Vortex

/-- A chunk of bytes, as relayed over the WebSocket or a TCP socket. -/
abbrev Chunk := List Nat

/-- Model of `DataView.getUint8`: `none` models the thrown `RangeError`
on an out-of-bounds access. -/
def getUint8 (buf : List Nat) (i : Nat) : Option Nat := buf[i]?

/-- Model of `DataView.getUint16` (big-endian, the JS default). -/
def getUint16 (buf : List Nat) (i : Nat) : Option Nat :=
  match buf[i]?, buf[i + 1]? with
  | some hi, some lo => some (hi * 256 + lo)
  | _, _ => none

/-- Model of `buffer.slice(a, b)`: truncating, never out of bounds. -/
def sliceBytes (buf : List Nat) (a b : Nat) : List Nat :=
  (buf.drop a).take (b - a)

/-- The Unicode replacement character U+FFFD produced by a non-fatal
`TextDecoder` on invalid input. -/
def replacementChar : Nat := 0xFFFD

/-- Is a byte a UTF-8 continuation byte? -/
def isCont (b : Nat) : Bool := decide (0x80 ≤ b ∧ b < 0xC0)

/-- Model of the UTF-8 decoding performed by `new TextDecoder().decode`:
code points of the decoded string, invalid sequences yielding U+FFFD.
The `fuel` argument (always instantiated with the list length, which
bounds the number of decoded code points) makes the recursion
structural, so the definition reduces inside the kernel. -/
def utf8Aux : Nat → List Nat → List Nat
  | 0, _ => []
  | _, [] => []
  | fuel + 1, b :: rest =>
    if b < 0x80 then b :: utf8Aux fuel rest
    else if b < 0xC2 then replacementChar :: utf8Aux fuel rest
    else if b ≤ 0xDF then
      match rest with
      | [] => [replacementChar]
      | c :: rest2 =>
        if isCont c then ((b - 0xC0) * 64 + (c - 0x80)) :: utf8Aux fuel rest2
        else replacementChar :: utf8Aux fuel (c :: rest2)
    else if b ≤ 0xEF then
      match rest with
      | c :: d :: rest2 =>
        if isCont c && isCont d then
          let v := (b - 0xE0) * 4096 + (c - 0x80) * 64 + (d - 0x80)
          (if v < 0x800 ∨ (0xD800 ≤ v ∧ v ≤ 0xDFFF) then replacementChar else v) ::
            utf8Aux fuel rest2
        else replacementChar :: utf8Aux fuel rest
      | _ => [replacementChar]
    else if b ≤ 0xF4 then
      match rest with
      | c :: d :: e :: rest2 =>
        if isCont c && isCont d && isCont e then
          let v := (b - 0xF0) * 262144 + (c - 0x80) * 4096 + (d - 0x80) * 64 + (e - 0x80)
          (if v < 0x10000 ∨ 0x10FFFF < v then replacementChar else v) ::
            utf8Aux fuel rest2
        else replacementChar :: utf8Aux fuel rest
      | _ => [replacementChar]
    else replacementChar :: utf8Aux fuel rest

/-- Code points decoded from a UTF-8 byte list. -/
def utf8CodePoints (bytes : List Nat) : List Nat :=
  utf8Aux bytes.length bytes

/-- Model of `new TextDecoder().decode(bytes)`. -/
def textDecode (bytes : List Nat) : String :=
  String.mk ((utf8CodePoints bytes).map Char.ofNat)

/-- Model of `new Uint8Array(bytes).join(".")` (IPv4 rendering). -/
def joinIPv4 (bytes : List Nat) : String :=
  String.intercalate "." (bytes.map (fun n => toString n))

/-- Model of `n.toString(16)` for a 16-bit group (IPv6 rendering). -/
def hexGroup (n : Nat) : String := String.mk (Nat.toDigits 16 n)

/-- Model of the 8-iteration `getUint16` loop that renders an IPv6
address; `none` models a thrown `RangeError` from any iteration. -/
def ipv6At (buf : List Nat) (offset : Nat) : Option String :=
  ((List.range 8).mapM (fun i => getUint16 buf (offset + i * 2))).map
    (fun groups => String.intercalate ":" (groups.map hexGroup))

/-- Destination object `{ address, port }` returned by the parsers. -/
structure Destination where
  address : String
  port : Nat
deriving Repr, DecidableEq

/-- Successful parse result `{ destination, remainingData }`. -/
structure ParsedHeader where
  destination : Destination
  remainingData : List Nat
deriving Repr, DecidableEq

/-- Error message produced when a `RangeError` escapes to the `catch`
of `parseVlessHeader`. -/
def vlessCatchMsg : String := "VLESS parsing failed: out-of-bounds read"

/-- Error message produced when a `RangeError` escapes to the `catch`
of `parseTrojanHeader`. -/
def trojanCatchMsg : String := "Trojan parsing failed: out-of-bounds read"

/-- Error message produced when a `RangeError` escapes to the `catch`
of `parseShadowsocksHeader`. -/
def ssCatchMsg : String := "Shadowsocks parsing failed: out-of-bounds read"

/-- `parseVlessHeader` from the source: byte 17 = add-ons length, then
command (must be 1), 2-byte big-endian port, address type (1 IPv4 /
2 domain / 3 IPv6), address, remainder = payload. -/
def parseVlessHeader (buffer : List Nat) : Except String ParsedHeader :=
  match getUint8 buffer 17 with
  | none => .error vlessCatchMsg
  | some addOnLength =>
    let offset := 18 + addOnLength
    match getUint8 buffer offset with
    | none => .error vlessCatchMsg
    | some command =>
      if command ≠ 1 then .error "Only TCP connections are supported."
      else
        let offset := offset + 1
        match getUint16 buffer offset with
        | none => .error vlessCatchMsg
        | some port =>
          let offset := offset + 2
          match getUint8 buffer offset with
          | none => .error vlessCatchMsg
          | some addressType =>
            let offset := offset + 1
            if addressType = 1 then
              let address := joinIPv4 (sliceBytes buffer offset (offset + 4))
              .ok ⟨⟨address, port⟩, buffer.drop (offset + 4)⟩
            else if addressType = 2 then
              match getUint8 buffer offset with
              | none => .error vlessCatchMsg
              | some addressLength =>
                let offset := offset + 1
                let address := textDecode (sliceBytes buffer offset (offset + addressLength))
                .ok ⟨⟨address, port⟩, buffer.drop (offset + addressLength)⟩
            else if addressType = 3 then
              match ipv6At buffer offset with
              | none => .error vlessCatchMsg
              | some address => .ok ⟨⟨address, port⟩, buffer.drop (offset + 16)⟩
            else .error ("Invalid VLESS address type: " ++ toString addressType)

/-- Tail of `parseTrojanHeader` after the address is decoded: 2-byte
big-endian port at `offset`, then a skipped trailing CRLF,
remainder = payload. -/
def trojanFinish (buffer : List Nat) (offset : Nat) (address : String) :
    Except String ParsedHeader :=
  match getUint16 buffer offset with
  | none => .error trojanCatchMsg
  | some port => .ok ⟨⟨address, port⟩, buffer.drop (offset + 2 + 2)⟩

/-- `parseTrojanHeader` from the source: 56-byte hex password, CRLF at
bytes 56-57, command (must be 1), address type (1 IPv4 / 3 domain /
4 IPv6), address, 2-byte big-endian port, a skipped trailing CRLF,
remainder = payload. -/
def parseTrojanHeader (buffer : List Nat) : Except String ParsedHeader :=
  let _passwordHex := textDecode (sliceBytes buffer 0 56)
  let crlf := textDecode (sliceBytes buffer 56 58)
  if crlf ≠ "\r\n" then .error "Invalid Trojan header (CRLF not found)."
  else
    match getUint8 buffer 58 with
    | none => .error trojanCatchMsg
    | some command =>
      if command ≠ 1 then .error "Only TCP connections are supported."
      else
        match getUint8 buffer 59 with
        | none => .error trojanCatchMsg
        | some addressType =>
          let offset := 60
          if addressType = 1 then
            let address := joinIPv4 (sliceBytes buffer offset (offset + 4))
            trojanFinish buffer (offset + 4) address
          else if addressType = 3 then
            match getUint8 buffer offset with
            | none => .error trojanCatchMsg
            | some addressLength =>
              let address := textDecode (sliceBytes buffer (offset + 1) (offset + 1 + addressLength))
              trojanFinish buffer (offset + 1 + addressLength) address
          else if addressType = 4 then
            match ipv6At buffer offset with
            | none => .error trojanCatchMsg
            | some address => trojanFinish buffer (offset + 16) address
          else .error ("Invalid Trojan address type: " ++ toString addressType)

/-- Tail of `parseShadowsocksHeader` after the address: 2-byte
big-endian port at `offset`, remainder = payload. -/
def ssFinish (buffer : List Nat) (offset : Nat) (address : String) :
    Except String ParsedHeader :=
  match getUint16 buffer offset with
  | none => .error ssCatchMsg
  | some port => .ok ⟨⟨address, port⟩, buffer.drop (offset + 2)⟩

/-- `parseShadowsocksHeader` from the source: byte 0 = address type
(1 IPv4 / 3 domain / 4 IPv6), address, 2-byte big-endian port,
remainder = payload. -/
def parseShadowsocksHeader (buffer : List Nat) : Except String ParsedHeader :=
  match getUint8 buffer 0 with
  | none => .error ssCatchMsg
  | some addressType =>
    let offset := 1
    if addressType = 1 then
      let address := joinIPv4 (sliceBytes buffer offset (offset + 4))
      ssFinish buffer (offset + 4) address
    else if addressType = 3 then
      match getUint8 buffer offset with
      | none => .error ssCatchMsg
      | some addressLength =>
        let address := textDecode (sliceBytes buffer (offset + 1) (offset + 1 + addressLength))
        ssFinish buffer (offset + 1 + addressLength) address
    else if addressType = 4 then
      match ipv6At buffer offset with
      | none => .error ssCatchMsg
      | some address => ssFinish buffer (offset + 16) address
    else .error ("Invalid Shadowsocks address type: " ++ toString addressType)

/-- Result of the protocol sniffer `parseRequestHeader`: a tagged parse
result or the unknown-protocol error. -/
inductive SniffResult where
  | ok (protocol : String) (header : ParsedHeader)
  | err (msg : String)
deriving Repr, DecidableEq

/-- Third stage of `parseRequestHeader`: the Shadowsocks check. -/
def sniffShadowsocks (chunk : List Nat) : SniffResult :=
  if chunk.length > 4 then
    match parseShadowsocksHeader chunk with
    | .ok r => .ok "Shadowsocks" r
    | .error _ => .err "Could not determine protocol."
  else .err "Could not determine protocol."

/-- Second stage of `parseRequestHeader`: the Trojan check, falling
through to Shadowsocks. -/
def sniffTrojan (chunk : List Nat) : SniffResult :=
  if chunk.length > 58 then
    match parseTrojanHeader chunk with
    | .ok r => .ok "Trojan" r
    | .error _ => sniffShadowsocks chunk
  else sniffShadowsocks chunk

/-- `parseRequestHeader` from the source: VLESS (length > 17), then
Trojan (length > 58), then Shadowsocks (length > 4), first success
wins; otherwise the unknown-protocol error. -/
def parseRequestHeader (chunk : List Nat) : SniffResult :=
  if chunk.length > 17 then
    match parseVlessHeader chunk with
    | .ok r => .ok "VLESS" r
    | .error _ => sniffTrojan chunk
  else sniffTrojan chunk

/-! ## Relay engine (the WebSocket handler module)

The stateful relay code is embedded as a trace semantics: a session run
produces the list of observable events, namely remote TCP connection
attempts (`connect` followed by the immediate write of the payload, as
in `connectAndWrite`) and WebSocket sends to the client.  The bytes a
remote socket delivers before it closes are supplied as an environment
(one list of chunks per connection attempt); the client WebSocket is
taken to stay open, which is the setting the relay claims quantify
over.  -/

/-- JavaScript port value passed to `connect`: the primary attempt
passes the parsed number, the retry passes the string piece of
`proxyIP` when present. -/
inductive JPort where
  | num (n : Nat)
  | str (s : String)
deriving Repr, DecidableEq

/-- Observable events of a session. -/
inductive TraceEvent where
  | connectAttempt (hostname : String) (port : JPort) (firstWrite : Chunk)
  | wsSend (payload : Chunk)
deriving Repr, DecidableEq

/-- A session trace. -/
abbrev Trace := List TraceEvent

/-- The connection attempts of a trace. -/
def connectEvents (t : Trace) : Trace :=
  t.filter fun e => match e with
    | .connectAttempt _ _ _ => true
    | .wsSend _ => false

/-- The payloads of the WebSocket sends of a trace, in order. -/
def wsMessages (t : Trace) : List Chunk :=
  t.filterMap fun e => match e with
    | .wsSend payload => some payload
    | .connectAttempt _ _ _ => none

/-- The per-invocation state of the `remoteSocketToWS` write loop:
the pending response header and the `hasIncomingData` flag. -/
structure RelayState where
  header : Option Chunk
  hasIncomingData : Bool
deriving Repr, DecidableEq

/-- One `write(chunk)` callback of `remoteSocketToWS`: sets
`hasIncomingData`, prefixes the pending header onto the chunk and
clears it. Returns the new state and the payload sent to the client. -/
def relayStep (s : RelayState) (chunk : Chunk) : RelayState × Chunk :=
  let s1 : RelayState := { s with hasIncomingData := true }
  match s1.header with
  | some h => ({ s1 with header := none }, h ++ chunk)
  | none => (s1, chunk)

/-- The `remoteSocket.readable.pipeTo` loop of `remoteSocketToWS`,
run over the chunks the remote delivers before closing. -/
def relayRun (s : RelayState) : List Chunk → RelayState × List Chunk
  | [] => (s, [])
  | c :: cs =>
    let sc := relayStep s c
    let rest := relayRun sc.1 cs
    (rest.1, sc.2 :: rest.2)

/-- `remoteSocketToWS` from the source: pump the remote chunks to the
client, then, when `hasIncomingData` is still false and a retry
continuation was supplied, run the retry (whose trace is the
`retry` argument; the retry invocation itself passes `null`). -/
def remoteSocketToWS (remoteChunks : List Chunk) (responseHeader : Option Chunk)
    (retry : Option Trace) : Trace :=
  let res := relayRun ⟨responseHeader, false⟩ remoteChunks
  let sends := res.2.map TraceEvent.wsSend
  if res.1.hasIncomingData = false ∧ retry.isSome then sends ++ retry.getD []
  else sends

/-- The arguments of `handleTCPOutBound` together with the module-level
`proxyIP` configuration read by its `retry` closure. -/
structure TCPConfig where
  proxyIP : String
  addressRemote : String
  portRemote : Nat
  rawClientData : Chunk
  responseHeader : Option Chunk
deriving Repr, DecidableEq

/-- JavaScript `proxyIP.split(/[:=-]/)` on the character list:
separators are dropped, empty pieces are kept. -/
def splitChars (p : Char → Bool) : List Char → List (List Char)
  | [] => [[]]
  | c :: cs =>
    let r := splitChars p cs
    if p c then [] :: r
    else
      match r with
      | [] => [[c]]
      | h :: t => (c :: h) :: t

/-- The pieces of `proxyIP.split(/[:=-]/)`. -/
def proxyIPParts (proxyIP : String) : List String :=
  (splitChars (fun c => c = ':' || c = '=' || c = '-') proxyIP.data).map String.mk

/-- Address used by the `retry` closure:
`proxyIP.split(/[:=-]/)[0] || addressRemote`. -/
def retryAddress (cfg : TCPConfig) : String :=
  let piece := (proxyIPParts cfg.proxyIP).getD 0 ""
  if piece = "" then cfg.addressRemote else piece

/-- Port used by the `retry` closure:
`proxyIP.split(/[:=-]/)[1] || portRemote` (a string when taken from
`proxyIP`, the parsed number otherwise). -/
def retryPort (cfg : TCPConfig) : JPort :=
  let piece := (proxyIPParts cfg.proxyIP).getD 1 ""
  if piece = "" then .num cfg.portRemote else .str piece

/-- `connectAndWrite(address, port)` from the source: opens the TCP
socket and immediately writes `rawClientData`. -/
def connectAndWrite (address : String) (port : JPort) (rawClientData : Chunk) : TraceEvent :=
  .connectAttempt address port rawClientData

/-- `handleTCPOutBound` from the source: the primary
`connectAndWrite(addressRemote, portRemote)`, then `remoteSocketToWS`
with the `retry` closure; the retry connects to the fallback
destination, resends `rawClientData`, and runs `remoteSocketToWS`
with a `null` retry continuation.  `primaryChunks` and
`fallbackChunks` are the chunks the two remote sockets deliver. -/
def handleTCPOutBound (cfg : TCPConfig) (primaryChunks fallbackChunks : List Chunk) : Trace :=
  let retryTrace : Trace :=
    connectAndWrite (retryAddress cfg) (retryPort cfg) cfg.rawClientData ::
      remoteSocketToWS fallbackChunks cfg.responseHeader none
  connectAndWrite cfg.addressRemote (.num cfg.portRemote) cfg.rawClientData ::
    remoteSocketToWS primaryChunks cfg.responseHeader (some retryTrace)

/-- `DNS_SERVER_ADDRESS` from the configuration module. -/
def DNS_SERVER_ADDRESS : String := "8.8.8.8"

/-- `DNS_SERVER_PORT` from the configuration module. -/
def DNS_SERVER_PORT : Nat := 53

/-- The send loop inside `handleUDPOutbound`: prefix the pending
`protocolHeader` onto the first response chunk, then plain sends. -/
def udpRelayMsgs (protocolHeader : Option Chunk) : List Chunk → List Chunk
  | [] => []
  | chunk :: rest =>
    match protocolHeader with
    | some h => (h ++ chunk) :: udpRelayMsgs none rest
    | none => chunk :: udpRelayMsgs none rest

/-- `handleUDPOutbound` from the source: connect to the target, write
the query chunk, and relay the responses of that socket back to the
client with the single-header-then-plain discipline. -/
def handleUDPOutbound (targetAddress : String) (targetPort : Nat) (udpChunk : Chunk)
    (responseHeader : Option Chunk) (responses : List Chunk) : Trace :=
  connectAndWrite targetAddress (.num targetPort) udpChunk ::
    (udpRelayMsgs responseHeader responses).map TraceEvent.wsSend

/-- A DNS-over-TCP session as driven by the `websocketHandler` write
loop: the first inbound chunk is forwarded with
`protocolHeader.version` as response header, every later chunk with
`null`; each call completes before the next chunk is processed.
Each inbound chunk is paired with the chunks its resolver socket
delivers. -/
def dnsSessionTrace (version : Option Chunk) : List (Chunk × List Chunk) → Trace
  | [] => []
  | (query, responses) :: rest =>
    handleUDPOutbound DNS_SERVER_ADDRESS DNS_SERVER_PORT query version responses ++
      dnsSessionTrace none rest

/-- The parsed protocol header object consumed by `websocketHandler`
(produced by the external `parsers.js` module). -/
structure ProtocolHeader where
  hasError : Bool
  message : String
  addressRemote : String
  portRemote : Nat
  isUDP : Bool
  rawClientData : Chunk
  version : Option Chunk
deriving Repr, DecidableEq

/-- What `websocketHandler` decides to do with the first chunk once the
header has been parsed. -/
inductive FirstChunkAction where
  | failSession (msg : String)
  | dnsForward (targetAddress : String) (targetPort : Nat) (chunk : Chunk)
      (responseHeader : Option Chunk)
  | tcpOutbound (address : String) (port : Nat) (rawClientData : Chunk)
      (responseHeader : Option Chunk)
deriving Repr, DecidableEq

/-- The routing done by the `write` callback of `websocketHandler` on
the first chunk, after the protocol header has been parsed: error
headers abort the session, UDP is accepted only for port 53 (routed to
the fixed DNS server), everything else goes to `handleTCPOutBound`. -/
def websocketRouteFirstChunk (protocolHeader : ProtocolHeader) (chunk : Chunk) :
    FirstChunkAction :=
  if protocolHeader.hasError then .failSession protocolHeader.message
  else if protocolHeader.isUDP then
    if protocolHeader.portRemote = 53 then
      .dnsForward DNS_SERVER_ADDRESS DNS_SERVER_PORT chunk protocolHeader.version
    else .failSession "UDP only support for DNS port 53"
  else
    .tcpOutbound protocolHeader.addressRemote protocolHeader.portRemote
      protocolHeader.rawClientData protocolHeader.version

/-! ## Early data (the transport adapter) -/

/-- One base64 digit value, standard alphabet. -/
def b64CharVal (c : Char) : Option Nat :=
  if 'A' ≤ c ∧ c ≤ 'Z' then some (c.toNat - 65)
  else if 'a' ≤ c ∧ c ≤ 'z' then some (c.toNat - 97 + 26)
  else if '0' ≤ c ∧ c ≤ '9' then some (c.toNat - 48 + 52)
  else if c = '+' then some 62
  else if c = '/' then some 63
  else none

/-- Strip one or two trailing `=` padding characters. -/
def stripPad (l : List Char) : List Char :=
  let r := l.reverse
  match r with
  | '=' :: '=' :: rest => rest.reverse
  | '=' :: rest => rest.reverse
  | _ => l

/-- Reassemble bytes from 6-bit base64 digit values. -/
def b64Bytes : List Nat → List Nat
  | a :: b :: c :: d :: rest =>
    (a * 4 + b / 16) :: ((b % 16) * 16 + c / 4) :: ((c % 4) * 64 + d) :: b64Bytes rest
  | [a, b] => [a * 4 + b / 16]
  | [a, b, c] => [a * 4 + b / 16, (b % 16) * 16 + c / 4]
  | _ => []

/-- Model of `atob` (forgiving base64 decode): remove ASCII whitespace,
strip padding when the length is a multiple of 4, reject a remainder
of 1 and any character outside the alphabet, and decode; the error is
the `InvalidCharacterError` exception `atob` throws. -/
def atobDecode (s : String) : Except String (List Nat) :=
  let data := s.data.filter fun c => !(c = ' ' || c = '\t' || c = '\n' || c = '\x0c' || c = '\r')
  let data := if data.length % 4 = 0 then stripPad data else data
  if data.length % 4 = 1 then .error "InvalidCharacterError"
  else
    match data.mapM b64CharVal with
    | none => .error "InvalidCharacterError"
    | some vals => .ok (b64Bytes vals)

/-- JavaScript `str.replace(/x/g, "y")` for one-character patterns. -/
def replaceChar (s : String) (pat repl : Char) : String :=
  String.mk (s.data.map fun c => if c = pat then repl else c)

/-- The result object of `base64ToArrayBuffer`. -/
structure B64Result where
  earlyData : Option Chunk
  error : Option String
deriving Repr, DecidableEq

/-- `base64ToArrayBuffer` from `utils.js`: an empty (absent) string
yields neither early data nor an error; otherwise base64url is mapped
to base64 (`-`→`+`, `_`→`/`) and decoded with `atob`, a thrown decode
error being returned in the `error` field. -/
def base64ToArrayBuffer (base64Str : String) : B64Result :=
  if base64Str = "" then ⟨none, none⟩
  else
    let normalized := replaceChar (replaceChar base64Str '-' '+') '_' '/'
    match atobDecode normalized with
    | .ok bytes => ⟨some bytes, none⟩
    | .error e => ⟨none, some e⟩

/-- Outcome of the readable stream built by
`makeReadableWebSocketStream`: either the stream is put into the error
state during `start`, or it produces a sequence of chunks. -/
inductive StreamOutcome where
  | errored (msg : String)
  | chunks (cs : List Chunk)
deriving Repr, DecidableEq

/-- `makeReadableWebSocketStream` from the source, viewed through the
chunk sequence it produces: `start` decodes the early-data header; a
decode error puts the stream in the error state, decoded bytes are
enqueued before every WebSocket message. -/
def makeReadableWebSocketStream (earlyDataHeader : String) (wsMessages : List Chunk) :
    StreamOutcome :=
  let res := base64ToArrayBuffer earlyDataHeader
  match res.error with
  | some e => .errored e
  | none =>
    match res.earlyData with
    | some earlyData => .chunks (earlyData :: wsMessages)
    | none => .chunks wsMessages

/-! ## Specification-side helper functions and concrete inputs -/

/-- The response preamble glued onto the first chunk of a list and no
later one (specification-side description of the relay send loop). -/
def headerOnFirst (h : Option Chunk) : List Chunk → List Chunk
  | [] => []
  | c :: cs => (match h with | some hd => hd ++ c | none => c) :: cs

/-- The number of address bytes the Trojan header at `buf` declares
(4 for IPv4, 1 + length byte for domains, 16 for IPv6). -/
def trojanAddrLen (buf : List Nat) : Option Nat :=
  match getUint8 buf 59 with
  | some 1 => some 4
  | some 3 => (getUint8 buf 60).map (· + 1)
  | some 4 => some 16
  | _ => none

/-- The number of address bytes the Shadowsocks header at `buf`
declares (4 for IPv4, 1 + length byte for domains, 16 for IPv6). -/
def ssAddrLen (buf : List Nat) : Option Nat :=
  match getUint8 buf 0 with
  | some 1 => some 4
  | some 3 => (getUint8 buf 1).map (· + 1)
  | some 4 => some 16
  | _ => none

/-- The VLESS example buffer of the specification: version 0, sixteen
zero identity bytes, add-ons length 0, command 1 (TCP), port 443,
address type 2 (domain), length 11, "example.com", then "PING". -/
def vlessExampleInput : List Nat :=
  [0, 0, 0, 0, 0, 0, 0, 0, 0, 0, 0, 0, 0, 0, 0, 0, 0,
   0, 1, 1, 187, 2, 11,
   101, 120, 97, 109, 112, 108, 101, 46, 99, 111, 109,
   80, 73, 78, 71]

/-- A 23-byte VLESS buffer whose IPv4 address field is cut short: the
four address bytes would occupy indices 22-25, but only index 22
exists. -/
def vlessTruncatedInput : List Nat :=
  [0, 0, 0, 0, 0, 0, 0, 0, 0, 0, 0, 0, 0, 0, 0, 0, 0, 0, 1, 1, 187, 1, 8]

/-- A complete Trojan request: 56 zero password bytes, CRLF, command 1,
IPv4 address 8.8.8.8, port 53, trailing CRLF. -/
def trojanDemoInput : List Nat :=
  List.replicate 56 48 ++ [13, 10, 1, 1, 8, 8, 8, 8, 0, 53, 13, 10]

/-- A concrete configuration for `handleTCPOutBound` with a configured
fallback destination `1.2.3.4-8080`. -/
def demoCfg : TCPConfig := ⟨"1.2.3.4-8080", "example.org", 80, [7], some [0, 0]⟩

/-- A parsed UDP header asking for port 53 (used as a witness input). -/
def demoUdpHeader : ProtocolHeader :=
  ⟨false, "", "9.9.9.9", 53, true, [1, 2], some [0, 0]⟩

/-- A parsed UDP header asking for port 443 (used as a witness input). -/
def demoUdpHeader443 : ProtocolHeader :=
  ⟨false, "", "9.9.9.9", 443, true, [1, 2], some [0, 0]⟩

/-! ## Basic lemmas about the byte-level primitives -/

theorem getUint8_bound {buf : List Nat} {i a : Nat} (h : getUint8 buf i = some a) :
    i < buf.length := by
  by_contra hlt
  rw [getUint8, List.getElem?_eq_none (by omega)] at h
  exact Option.noConfusion h

theorem getUint16_bound {buf : List Nat} {i p : Nat} (h : getUint16 buf i = some p) :
    i + 2 ≤ buf.length := by
  by_contra hlt
  rw [getUint16, List.getElem?_eq_none (l := buf) (n := i + 1) (by omega)] at h
  cases buf[i]? <;> simp at h

theorem char_toNat_ofNat {n : Nat} (h : n.isValidChar) : (Char.ofNat n).toNat = n := by
  rw [Char.ofNat, dif_pos h]
  rfl

theorem char_ofNat_inv {a : Nat} (ha : a < 0x80) {c : Char} (h : Char.ofNat a = c) :
    a = c.toNat := by
  have hv : a.isValidChar := Or.inl (by omega)
  have h2 := congrArg Char.toNat h
  rwa [char_toNat_ofNat hv] at h2

/-- Definitional unfolding of the UTF-8 decoder on a one-byte input. -/
theorem utf8Aux_single (x : Nat) :
    utf8Aux 1 [x] =
      if x < 0x80 then [x]
      else if x < 0xC2 then [replacementChar]
      else if x ≤ 0xDF then [replacementChar]
      else if x ≤ 0xEF then [replacementChar]
      else if x ≤ 0xF4 then [replacementChar]
      else [replacementChar] := rfl

/-- Definitional unfolding of the UTF-8 decoder on a two-byte input. -/
theorem utf8Aux_two (a b : Nat) :
    utf8Aux 2 [a, b] =
      if a < 0x80 then a :: utf8Aux 1 [b]
      else if a < 0xC2 then replacementChar :: utf8Aux 1 [b]
      else if a ≤ 0xDF then
        (if isCont b then [(a - 0xC0) * 64 + (b - 0x80)]
         else replacementChar :: utf8Aux 1 [b])
      else if a ≤ 0xEF then [replacementChar]
      else if a ≤ 0xF4 then [replacementChar]
      else replacementChar :: utf8Aux 1 [b] := rfl

/-- A two-byte slice decodes to the string `"\r\n"` only when the two
bytes are exactly CR LF. -/
theorem textDecode_pair_crlf {a b : Nat} (h : textDecode [a, b] = "\r\n") :
    a = 13 ∧ b = 10 := by
  have hd : (utf8Aux 2 [a, b]).map Char.ofNat = ['\r', '\n'] := congrArg String.data h
  rw [utf8Aux_two] at hd
  have second : ∀ y : Nat, (utf8Aux 1 [y]).map Char.ofNat = ['\n'] → y = 10 := by
    intro y hy
    rw [utf8Aux_single] at hy
    split_ifs at hy with hy1 hy2 hy3 hy4 hy5
    · simp only [List.map] at hy
      injection hy with hy0
      have := char_ofNat_inv hy1 hy0
      rw [show ('\n').toNat = 10 from rfl] at this
      omega
    all_goals
      simp only [List.map] at hy
      injection hy with hy0
      exact absurd hy0 (by decide)
  split_ifs at hd with h1 h2 h3 h4 h5 h6
  · simp only [List.map] at hd
    injection hd with hd0 hd1
    have ha := char_ofNat_inv h1 hd0
    rw [show ('\r').toNat = 13 from rfl] at ha
    exact ⟨by omega, second b hd1⟩
  · simp only [List.map] at hd
    injection hd with hd0
    exact absurd hd0 (by decide)
  · simp at hd
  · simp only [List.map] at hd
    injection hd with hd0
    exact absurd hd0 (by decide)
  · simp at hd
  · simp at hd
  · simp only [List.map] at hd
    injection hd with hd0
    exact absurd hd0 (by decide)

/-! ## Lemmas about the relay pump -/

theorem relayRun_hasIncomingData (s : RelayState) (cs : List Chunk) :
    (relayRun s cs).1.hasIncomingData = (s.hasIncomingData || !cs.isEmpty) := by
  induction cs generalizing s with
  | nil => simp [relayRun]
  | cons c cs ih =>
    obtain ⟨header, flag⟩ := s
    cases header <;> simp [relayRun, relayStep, ih]

theorem relayRun_msgs_none (b : Bool) (cs : List Chunk) :
    (relayRun ⟨none, b⟩ cs).2 = cs := by
  induction cs generalizing b with
  | nil => rfl
  | cons c cs ih => simp [relayRun, relayStep, ih]

theorem relayRun_msgs (h : Option Chunk) (b : Bool) (cs : List Chunk) :
    (relayRun ⟨h, b⟩ cs).2 = headerOnFirst h cs := by
  cases cs with
  | nil => cases h <;> rfl
  | cons c cs =>
    cases h <;> simp [relayRun, relayStep, headerOnFirst, relayRun_msgs_none]

theorem udpRelayMsgs_none (cs : List Chunk) : udpRelayMsgs none cs = cs := by
  induction cs with
  | nil => rfl
  | cons c cs ih => simp [udpRelayMsgs, ih]

theorem udpRelayMsgs_eq (h : Option Chunk) (cs : List Chunk) :
    udpRelayMsgs h cs = headerOnFirst h cs := by
  cases cs <;> cases h <;> simp [udpRelayMsgs, headerOnFirst, udpRelayMsgs_none]

theorem wsMessages_nil : wsMessages [] = [] := rfl

theorem wsMessages_append (t1 t2 : Trace) :
    wsMessages (t1 ++ t2) = wsMessages t1 ++ wsMessages t2 :=
  List.filterMap_append ..

theorem wsMessages_map_wsSend (cs : List Chunk) :
    wsMessages (cs.map TraceEvent.wsSend) = cs := by
  induction cs with
  | nil => rfl
  | cons c cs ih => simpa [wsMessages, List.filterMap_cons] using ih

theorem wsMessages_connect_cons (a : String) (p : JPort) (w : Chunk) (t : Trace) :
    wsMessages (TraceEvent.connectAttempt a p w :: t) = wsMessages t := by
  simp [wsMessages, List.filterMap_cons]

theorem connectEvents_append (t1 t2 : Trace) :
    connectEvents (t1 ++ t2) = connectEvents t1 ++ connectEvents t2 :=
  List.filter_append ..

theorem connectEvents_map_wsSend (cs : List Chunk) :
    connectEvents (cs.map TraceEvent.wsSend) = [] := by
  induction cs with
  | nil => rfl
  | cons c cs ih => simp [connectEvents, List.filter_cons, ih]

theorem connectEvents_connect_cons (a : String) (p : JPort) (w : Chunk) (t : Trace) :
    connectEvents (TraceEvent.connectAttempt a p w :: t) =
      TraceEvent.connectAttempt a p w :: connectEvents t := by
  simp [connectEvents, List.filter_cons]

/-- `remoteSocketToWS` does not fire the retry once any chunk arrived. -/
theorem remoteSocketToWS_cons (c : Chunk) (cs : List Chunk) (h : Option Chunk)
    (r : Option Trace) :
    remoteSocketToWS (c :: cs) h r =
      ((relayRun ⟨h, false⟩ (c :: cs)).2.map TraceEvent.wsSend) := by
  rw [remoteSocketToWS, if_neg]
  intro hc
  rw [relayRun_hasIncomingData] at hc
  simp at hc

/-- `remoteSocketToWS` on a silent remote runs the supplied retry. -/
theorem remoteSocketToWS_nil_retry (h : Option Chunk) (tr : Trace) :
    remoteSocketToWS [] h (some tr) = tr := by
  simp [remoteSocketToWS, relayRun]

/-- `remoteSocketToWS` with a null retry continuation only sends. -/
theorem remoteSocketToWS_no_retry (cs : List Chunk) (h : Option Chunk) :
    remoteSocketToWS cs h none =
      ((relayRun ⟨h, false⟩ cs).2.map TraceEvent.wsSend) := by
  simp [remoteSocketToWS]

/-- The connection attempts of a `handleTCPOutBound` session: the
primary one, followed by the single fallback attempt exactly when the
primary socket delivered no chunk. -/
theorem handleTCPOutBound_connects (cfg : TCPConfig) (primaryChunks fallbackChunks : List Chunk) :
    connectEvents (handleTCPOutBound cfg primaryChunks fallbackChunks) =
      (match primaryChunks with
       | [] =>
        [connectAndWrite cfg.addressRemote (.num cfg.portRemote) cfg.rawClientData,
         connectAndWrite (retryAddress cfg) (retryPort cfg) cfg.rawClientData]
       | _ :: _ =>
        [connectAndWrite cfg.addressRemote (.num cfg.portRemote) cfg.rawClientData]) := by
  cases primaryChunks with
  | nil =>
    simp only [handleTCPOutBound, connectAndWrite]
    rw [remoteSocketToWS_nil_retry, connectEvents_connect_cons,
      connectEvents_connect_cons, remoteSocketToWS_no_retry, connectEvents_map_wsSend]
  | cons c cs =>
    simp only [handleTCPOutBound, connectAndWrite]
    rw [remoteSocketToWS_cons, connectEvents_connect_cons, connectEvents_map_wsSend]

/-! ## Claim theorems -/

/-- C1: a `handleTCPOutBound` session makes at most two remote TCP
connection attempts; when the primary attempt completes (or fails) with
zero bytes observed from the remote, exactly one retry is issued
against the configured fallback destination resending the original
decoded payload, and because the retry invocation of the relay loop is
passed a null retry continuation a third attempt never occurs, for any
behaviour of the two remote sockets. -/
theorem claim_C1_single_retry (cfg : TCPConfig) (primaryChunks fallbackChunks : List Chunk) :
    (connectEvents (handleTCPOutBound cfg primaryChunks fallbackChunks)).length ≤ 2 ∧
    (primaryChunks = [] →
      connectEvents (handleTCPOutBound cfg primaryChunks fallbackChunks) =
        [connectAndWrite cfg.addressRemote (.num cfg.portRemote) cfg.rawClientData,
         connectAndWrite (retryAddress cfg) (retryPort cfg) cfg.rawClientData]) ∧
    (primaryChunks ≠ [] →
      connectEvents (handleTCPOutBound cfg primaryChunks fallbackChunks) =
        [connectAndWrite cfg.addressRemote (.num cfg.portRemote) cfg.rawClientData]) := by
  have hconn := handleTCPOutBound_connects cfg primaryChunks fallbackChunks
  refine ⟨?_, ?_, ?_⟩
  · rw [hconn]; cases primaryChunks <;> simp
  · intro hp; subst hp; simpa using hconn
  · intro hp
    cases primaryChunks with
    | nil => exact absurd rfl hp
    | cons c cs => simpa using hconn

/-- Witness for C1 at a concrete configuration: the primary socket
yields no data, so exactly the primary attempt and one fallback
attempt appear, the fallback going to the configured destination
`1.2.3.4`, string port `"8080"`, with the original payload. -/
theorem claim_C1_single_retry_witness :
    connectEvents (handleTCPOutBound demoCfg [] [[1]]) =
      [TraceEvent.connectAttempt "example.org" (.num 80) [7],
       TraceEvent.connectAttempt "1.2.3.4" (.str "8080") [7]] := by
  have h := (claim_C1_single_retry demoCfg [] [[1]]).2.1 rfl
  rw [h]
  rfl

/-- C4: the `hasIncomingData` flag is monotonic — once true it stays
true across any further remote chunks — and once any chunk has been
relayed the retry never fires: `remoteSocketToWS` on a non-empty chunk
sequence only sends, and a `handleTCPOutBound` session whose primary
socket delivered at least one chunk makes exactly one connection
attempt, even when the close follows immediately after that chunk. -/
theorem claim_C4_flag_monotonic :
    (∀ (s : RelayState) (cs : List Chunk), s.hasIncomingData = true →
      (relayRun s cs).1.hasIncomingData = true) ∧
    (∀ (responseHeader : Option Chunk) (retryTrace : Trace) (c : Chunk) (cs : List Chunk),
      remoteSocketToWS (c :: cs) responseHeader (some retryTrace) =
        ((relayRun ⟨responseHeader, false⟩ (c :: cs)).2.map TraceEvent.wsSend)) ∧
    (∀ (cfg : TCPConfig) (c : Chunk) (cs fallbackChunks : List Chunk),
      connectEvents (handleTCPOutBound cfg (c :: cs) fallbackChunks) =
        [connectAndWrite cfg.addressRemote (.num cfg.portRemote) cfg.rawClientData]) := by
  refine ⟨?_, ?_, ?_⟩
  · intro s cs hs
    rw [relayRun_hasIncomingData, hs, Bool.true_or]
  · intro responseHeader retryTrace c cs
    exact remoteSocketToWS_cons c cs responseHeader (some retryTrace)
  · intro cfg c cs fallbackChunks
    exact handleTCPOutBound_connects cfg (c :: cs) fallbackChunks

/-- Witness for C4: a run that already saw data keeps the flag across a
subsequent empty delivery, and a primary socket that delivers exactly
one chunk and then closes still causes a single connection attempt. -/
theorem claim_C4_flag_monotonic_witness :
    (relayRun ⟨none, true⟩ []).1.hasIncomingData = true ∧
    connectEvents (handleTCPOutBound demoCfg [[9]] []) =
      [connectAndWrite demoCfg.addressRemote (.num demoCfg.portRemote) demoCfg.rawClientData] :=
  ⟨claim_C4_flag_monotonic.1 ⟨none, true⟩ [] rfl,
   claim_C4_flag_monotonic.2.2 demoCfg [9] [] []⟩

/-- C5: in every session — TCP sessions including those where the
single retry fires, and DNS-over-TCP sessions — the messages sent to
the client are exactly the relayed remote chunks with the response
preamble glued onto the first one and onto no later one, so a
non-empty preamble is emitted at most once per session. -/
theorem claim_C5_preamble_once (cfg : TCPConfig) (primaryChunks fallbackChunks : List Chunk)
    (version : Option Chunk) (sessions : List (Chunk × List Chunk)) :
    wsMessages (handleTCPOutBound cfg primaryChunks fallbackChunks) =
      headerOnFirst cfg.responseHeader
        (if primaryChunks = [] then fallbackChunks else primaryChunks) ∧
    wsMessages (dnsSessionTrace version sessions) =
      (if (match sessions with | [] => true | s :: _ => s.2.isEmpty)
       then ((sessions.map Prod.snd).flatten)
       else headerOnFirst version ((sessions.map Prod.snd).flatten)) := by
  constructor
  · cases primaryChunks with
    | nil =>
      simp only [handleTCPOutBound, connectAndWrite]
      rw [remoteSocketToWS_nil_retry, wsMessages_connect_cons, wsMessages_connect_cons,
        remoteSocketToWS_no_retry, wsMessages_map_wsSend, relayRun_msgs]
      simp
    | cons c cs =>
      simp only [handleTCPOutBound, connectAndWrite]
      rw [remoteSocketToWS_cons, wsMessages_connect_cons, wsMessages_map_wsSend,
        relayRun_msgs]
      simp
  · have hnone : ∀ ss : List (Chunk × List Chunk),
        wsMessages (dnsSessionTrace none ss) = (ss.map Prod.snd).flatten := by
      intro ss
      induction ss with
      | nil => rfl
      | cons s rest ih =>
        obtain ⟨q, rs⟩ := s
        rw [dnsSessionTrace, wsMessages_append, handleUDPOutbound, connectAndWrite,
          wsMessages_connect_cons, wsMessages_map_wsSend, udpRelayMsgs_none, ih]
        simp
    cases sessions with
    | nil => cases version <;> rfl
    | cons s rest =>
      obtain ⟨q, rs⟩ := s
      rw [dnsSessionTrace, wsMessages_append, handleUDPOutbound, connectAndWrite,
        wsMessages_connect_cons, wsMessages_map_wsSend, hnone, udpRelayMsgs_eq]
      cases rs with
      | nil => simp [headerOnFirst]
      | cons r rtl => cases version <;> simp [headerOnFirst]

/-- C6: the specification's concrete VLESS buffer — version 0, sixteen
identity bytes, add-ons length 0, command 1, port 443, domain type,
length 11, "example.com", payload "PING" — parses without error to
address `example.com`, port `443`, and leftover payload exactly the
bytes of "PING". -/
theorem claim_C6_vless_example :
    parseVlessHeader vlessExampleInput =
      .ok ⟨⟨"example.com", 443⟩, [80, 73, 78, 71]⟩ := by
  rfl

/-- C8: for a successfully parsed header requesting UDP,
`websocketHandler` fails the session with the unsupported-UDP error and
attempts no outbound connection unless the port is exactly 53, in which
case the chunk is forwarded over TCP to the fixed resolver endpoint
`8.8.8.8:53` (`DNS_SERVER_ADDRESS`/`DNS_SERVER_PORT`), never to the
client-supplied address. -/
theorem claim_C8_udp_routing (h : ProtocolHeader) (chunk : Chunk)
    (hok : h.hasError = false) (hudp : h.isUDP = true) :
    (h.portRemote ≠ 53 →
      websocketRouteFirstChunk h chunk = .failSession "UDP only support for DNS port 53") ∧
    (h.portRemote = 53 →
      websocketRouteFirstChunk h chunk =
        .dnsForward DNS_SERVER_ADDRESS DNS_SERVER_PORT chunk h.version ∧
      DNS_SERVER_ADDRESS = "8.8.8.8" ∧ DNS_SERVER_PORT = 53) := by
  constructor
  · intro hport
    simp [websocketRouteFirstChunk, hok, hudp, hport]
  · intro hport
    refine ⟨?_, rfl, rfl⟩
    simp [websocketRouteFirstChunk, hok, hudp, hport]

/-- Witness for C8: a UDP header for port 53 is routed to the fixed
resolver, and the same header with port 443 fails the session. -/
theorem claim_C8_udp_routing_witness :
    websocketRouteFirstChunk demoUdpHeader [1, 2] =
      .dnsForward DNS_SERVER_ADDRESS DNS_SERVER_PORT [1, 2] demoUdpHeader.version ∧
    websocketRouteFirstChunk demoUdpHeader443 [1, 2] =
      .failSession "UDP only support for DNS port 53" :=
  ⟨((claim_C8_udp_routing demoUdpHeader [1, 2] rfl rfl).2 rfl).1,
   (claim_C8_udp_routing demoUdpHeader443 [1, 2] rfl rfl).1 (by decide)⟩

/-- C9: a present but undecodable base64url early-data field puts the
transport adapter's chunk stream into the error state (the decode
error is surfaced, not skipped), while a decodable field is enqueued
as the first produced chunk, before every WebSocket message. -/
theorem claim_C9_early_data (earlyDataHeader : String) (msgs : List Chunk) :
    (∀ e, (base64ToArrayBuffer earlyDataHeader).error = some e →
      makeReadableWebSocketStream earlyDataHeader msgs = .errored e) ∧
    (earlyDataHeader ≠ "" → ∀ e,
      atobDecode (replaceChar (replaceChar earlyDataHeader '-' '+') '_' '/') = .error e →
      makeReadableWebSocketStream earlyDataHeader msgs = .errored e) ∧
    (∀ earlyData, (base64ToArrayBuffer earlyDataHeader).earlyData = some earlyData →
      makeReadableWebSocketStream earlyDataHeader msgs = .chunks (earlyData :: msgs)) := by
  have b64eq : base64ToArrayBuffer earlyDataHeader =
      (if earlyDataHeader = "" then ⟨none, none⟩
       else
        match atobDecode (replaceChar (replaceChar earlyDataHeader '-' '+') '_' '/') with
        | .ok bytes => ⟨some bytes, none⟩
        | .error e => ⟨none, some e⟩) := rfl
  have mkeq : makeReadableWebSocketStream earlyDataHeader msgs =
      (match (base64ToArrayBuffer earlyDataHeader).error with
       | some e => .errored e
       | none =>
        match (base64ToArrayBuffer earlyDataHeader).earlyData with
        | some earlyData => .chunks (earlyData :: msgs)
        | none => .chunks msgs) := rfl
  refine ⟨?_, ?_, ?_⟩
  · intro e he
    rw [mkeq, he]
  · intro hne e he
    have herr : (base64ToArrayBuffer earlyDataHeader).error = some e := by
      rw [b64eq, if_neg hne, he]
    rw [mkeq, herr]
  · intro earlyData hed
    rw [b64eq] at hed
    by_cases hne : earlyDataHeader = ""
    · rw [if_pos hne] at hed
      exact absurd hed (by simp)
    · rw [if_neg hne] at hed
      cases hdec : atobDecode (replaceChar (replaceChar earlyDataHeader '-' '+') '_' '/') with
      | ok bytes =>
        rw [hdec] at hed
        simp only [Option.some.injEq] at hed
        have hres : base64ToArrayBuffer earlyDataHeader = ⟨some earlyData, none⟩ := by
          rw [b64eq, if_neg hne, hdec, hed]
        rw [mkeq, hres]
      | error e =>
        rw [hdec] at hed
        exact absurd hed (by simp)

/-- Witness for C9: the header `"!!!"` is present but not base64, so
the stream errors; the header `"aGk"` decodes to the bytes of "hi",
which become the first chunk. -/
theorem claim_C9_early_data_witness :
    makeReadableWebSocketStream "!!!" [[5]] = .errored "InvalidCharacterError" ∧
    makeReadableWebSocketStream "aGk" [[5]] = .chunks ([104, 105] :: [[5]]) :=
  ⟨(claim_C9_early_data "!!!" [[5]]).1 "InvalidCharacterError" rfl,
   (claim_C9_early_data "aGk" [[5]]).2.2 [104, 105] rfl⟩

/-- C2: the protocol sniffer tries the parsers in the fixed priority
VLESS (only for chunks longer than 17 bytes), then Trojan (longer than
58), then Shadowsocks (longer than 4), returning the result of the
first parser that succeeds; in particular a chunk on which VLESS's own
checks pass resolves to VLESS even when Shadowsocks would also accept
it, and when no parser succeeds — including chunks too short for any —
the sniffer returns the unknown-protocol error. -/
theorem claim_C2_sniffer_priority (chunk : List Nat) :
    (∀ r : ParsedHeader, 17 < chunk.length → parseVlessHeader chunk = .ok r →
      parseRequestHeader chunk = .ok "VLESS" r) ∧
    (∀ r : ParsedHeader, 58 < chunk.length →
      (chunk.length ≤ 17 ∨ (parseVlessHeader chunk).isOk = false) →
      parseTrojanHeader chunk = .ok r →
      parseRequestHeader chunk = .ok "Trojan" r) ∧
    (∀ r : ParsedHeader, 4 < chunk.length →
      (chunk.length ≤ 17 ∨ (parseVlessHeader chunk).isOk = false) →
      (chunk.length ≤ 58 ∨ (parseTrojanHeader chunk).isOk = false) →
      parseShadowsocksHeader chunk = .ok r →
      parseRequestHeader chunk = .ok "Shadowsocks" r) ∧
    ((chunk.length ≤ 17 ∨ (parseVlessHeader chunk).isOk = false) →
     (chunk.length ≤ 58 ∨ (parseTrojanHeader chunk).isOk = false) →
     (chunk.length ≤ 4 ∨ (parseShadowsocksHeader chunk).isOk = false) →
     parseRequestHeader chunk = .err "Could not determine protocol.") := by
  have hv : (chunk.length ≤ 17 ∨ (parseVlessHeader chunk).isOk = false) →
      parseRequestHeader chunk = sniffTrojan chunk := by
    intro hyp
    rw [parseRequestHeader]
    by_cases h17 : chunk.length > 17
    · rw [if_pos h17]
      cases hvp : parseVlessHeader chunk with
      | ok rr =>
        rcases hyp with hlen | hisok
        · omega
        · rw [hvp] at hisok
          exact absurd hisok (by simp [Except.isOk, Except.toBool])
      | error e => rfl
    · rw [if_neg h17]
  have ht : (chunk.length ≤ 58 ∨ (parseTrojanHeader chunk).isOk = false) →
      sniffTrojan chunk = sniffShadowsocks chunk := by
    intro hyp
    rw [sniffTrojan]
    by_cases h58 : chunk.length > 58
    · rw [if_pos h58]
      cases htp : parseTrojanHeader chunk with
      | ok rr =>
        rcases hyp with hlen | hisok
        · omega
        · rw [htp] at hisok
          exact absurd hisok (by simp [Except.isOk, Except.toBool])
      | error e => rfl
    · rw [if_neg h58]
  refine ⟨?_, ?_, ?_, ?_⟩
  · intro r h17 hok
    rw [parseRequestHeader, if_pos (show chunk.length > 17 from h17), hok]
  · intro r h58 hyp hok
    rw [hv hyp, sniffTrojan, if_pos (show chunk.length > 58 from h58), hok]
  · intro r h4 hyp1 hyp2 hok
    rw [hv hyp1, ht hyp2, sniffShadowsocks, if_pos (show chunk.length > 4 from h4), hok]
  · intro hyp1 hyp2 hyp3
    rw [hv hyp1, ht hyp2, sniffShadowsocks]
    by_cases h4 : chunk.length > 4
    · rw [if_pos h4]
      cases hsp : parseShadowsocksHeader chunk with
      | ok rr =>
        rcases hyp3 with hlen | hisok
        · omega
        · rw [hsp] at hisok
          exact absurd hisok (by simp [Except.isOk, Except.toBool])
      | error e => rfl
    · rw [if_neg h4]

/-- Witness for C2: the concrete VLESS example chunk is long enough
for all three parsers yet resolves to VLESS with its parsed header. -/
theorem claim_C2_sniffer_priority_witness :
    parseRequestHeader vlessExampleInput =
      .ok "VLESS" ⟨⟨"example.com", 443⟩, [80, 73, 78, 71]⟩ :=
  (claim_C2_sniffer_priority vlessExampleInput).1
    ⟨⟨"example.com", 443⟩, [80, 73, 78, 71]⟩ (by decide) (by rfl)

/-- C7: a buffer longer than 58 bytes whose bytes 56-57 are not the two
characters CR LF always makes the Trojan parser fail with the
CRLF-not-found error — an error object carrying no address or port —
whatever the contents of every other byte. -/
theorem claim_C7_trojan_crlf (buf : List Nat) (hlen : 58 < buf.length)
    (hcrlf : ¬(buf[56]? = some 13 ∧ buf[57]? = some 10)) :
    parseTrojanHeader buf = .error "Invalid Trojan header (CRLF not found)." := by
  have h56 : 56 < buf.length := by omega
  have h57 : 57 < buf.length := by omega
  have hslice : sliceBytes buf 56 58 = [buf[56], buf[57]] := by
    rw [sliceBytes, List.drop_eq_getElem_cons h56, List.drop_eq_getElem_cons h57]
    rfl
  have hne : ¬(textDecode (sliceBytes buf 56 58) = "\r\n") := by
    rw [hslice]
    intro hdec
    obtain ⟨ha, hb⟩ := textDecode_pair_crlf hdec
    exact hcrlf ⟨by rw [List.getElem?_eq_getElem h56, ha],
      by rw [List.getElem?_eq_getElem h57, hb]⟩
  simp only [parseTrojanHeader]
  rw [if_pos hne]

/-- Witness for C7: fifty-nine zero bytes are long enough for the
Trojan parser, but bytes 56-57 are `0 0`, so parsing fails with the
CRLF error. -/
theorem claim_C7_trojan_crlf_witness :
    parseTrojanHeader (List.replicate 59 0) =
      .error "Invalid Trojan header (CRLF not found)." :=
  claim_C7_trojan_crlf (List.replicate 59 0) (by decide) (by decide)

/-- C3 counterexample: on the 23-byte buffer `vlessTruncatedInput` the
VLESS parser needs the IPv4 address bytes at offsets 22-25 — an end
offset of 26, which exceeds the buffer length 23 — yet it returns a
success built from the truncated one-byte address `"8"` instead of a
parse failure, contradicting the claim. -/
theorem claim_C3_counterexample :
    vlessTruncatedInput.length = 23 ∧
    parseVlessHeader vlessTruncatedInput = .ok ⟨⟨"8", 443⟩, []⟩ :=
  ⟨rfl, rfl⟩

theorem trojanFinish_ok {buf : List Nat} {off : Nat} {addr : String} {r : ParsedHeader}
    (h : trojanFinish buf off addr = .ok r) : off + 2 ≤ buf.length := by
  rw [trojanFinish] at h
  cases hp : getUint16 buf off with
  | none => rw [hp] at h; exact absurd h (by simp)
  | some p => exact getUint16_bound hp

theorem ssFinish_ok {buf : List Nat} {off : Nat} {addr : String} {r : ParsedHeader}
    (h : ssFinish buf off addr = .ok r) : off + 2 ≤ buf.length := by
  rw [ssFinish] at h
  cases hp : getUint16 buf off with
  | none => rw [hp] at h; exact absurd h (by simp)
  | some p => exact getUint16_bound hp

/-- C3 amended: no parser ever crashes or reads out of bounds — every
out-of-bounds fixed-width read (add-ons byte, command, port, address
type, domain length byte, IPv6 groups) yields a parse failure — and
for Trojan and Shadowsocks, whose port field follows the address, a
success implies the whole header through the port lies inside the
buffer; the VLESS parser guarantees this only up to the address type,
because its address field is last and `slice` truncates silently (see
the counterexample). -/
theorem claim_C3_amended (buf : List Nat) :
    (∀ r : ParsedHeader, parseVlessHeader buf = .ok r →
      ∃ a, getUint8 buf 17 = some a ∧ 22 + a ≤ buf.length) ∧
    (∀ r : ParsedHeader, parseTrojanHeader buf = .ok r →
      ∃ L, trojanAddrLen buf = some L ∧ 62 + L ≤ buf.length) ∧
    (∀ r : ParsedHeader, parseShadowsocksHeader buf = .ok r →
      ∃ L, ssAddrLen buf = some L ∧ 3 + L ≤ buf.length) := by
  refine ⟨?_, ?_, ?_⟩
  · intro r h
    simp only [parseVlessHeader] at h
    cases hx : getUint8 buf 17 with
    | none => simp [hx] at h
    | some a =>
      simp only [hx] at h
      cases hy : getUint8 buf (18 + a) with
      | none => simp [hy] at h
      | some command =>
        simp only [hy] at h
        by_cases hcmd : command ≠ 1
        · rw [if_pos hcmd] at h; simp at h
        · rw [if_neg hcmd] at h
          cases hp : getUint16 buf (18 + a + 1) with
          | none => simp [hp] at h
          | some port =>
            simp only [hp] at h
            cases hT : getUint8 buf (18 + a + 1 + 2) with
            | none => simp [hT] at h
            | some t =>
              exact ⟨a, rfl, by have := getUint8_bound hT; omega⟩
  · intro r h
    simp only [parseTrojanHeader] at h
    by_cases hcr : textDecode (sliceBytes buf 56 58) ≠ "\r\n"
    · rw [if_pos hcr] at h; simp at h
    · rw [if_neg hcr] at h
      cases hc : getUint8 buf 58 with
      | none => simp [hc] at h
      | some command =>
        simp only [hc] at h
        by_cases hcmd : command ≠ 1
        · rw [if_pos hcmd] at h; simp at h
        · rw [if_neg hcmd] at h
          cases hT : getUint8 buf 59 with
          | none => simp [hT] at h
          | some t =>
            simp only [hT] at h
            split_ifs at h with h1 h3 h4
            · have hb := trojanFinish_ok h
              exact ⟨4, by simp [trojanAddrLen, hT, h1], by omega⟩
            · cases hd : getUint8 buf 60 with
              | none => simp [hd] at h
              | some d =>
                simp only [hd] at h
                have hb := trojanFinish_ok h
                exact ⟨d + 1, by simp [trojanAddrLen, hT, h3, hd], by omega⟩
            · cases hv6 : ipv6At buf 60 with
              | none => simp [hv6] at h
              | some addr =>
                simp only [hv6] at h
                have hb := trojanFinish_ok h
                exact ⟨16, by simp [trojanAddrLen, hT, h4], by omega⟩
  · intro r h
    simp only [parseShadowsocksHeader] at h
    cases hT : getUint8 buf 0 with
    | none => simp [hT] at h
    | some t =>
      simp only [hT] at h
      split_ifs at h with h1 h3 h4
      · have hb := ssFinish_ok h
        exact ⟨4, by simp [ssAddrLen, hT, h1], by omega⟩
      · cases hd : getUint8 buf 1 with
        | none => simp [hd] at h
        | some d =>
          simp only [hd] at h
          have hb := ssFinish_ok h
          exact ⟨d + 1, by simp [ssAddrLen, hT, h3, hd], by omega⟩
      · cases hv6 : ipv6At buf 1 with
        | none => simp [hv6] at h
        | some addr =>
          simp only [hv6] at h
          have hb := ssFinish_ok h
          exact ⟨16, by simp [ssAddrLen, hT, h4], by omega⟩

/-- Witness for the amended C3: the complete concrete Trojan request
satisfies the in-bounds guarantee its success implies. -/
theorem claim_C3_amended_witness :
    ∃ L, trojanAddrLen trojanDemoInput = some L ∧ 62 + L ≤ trojanDemoInput.length :=
  (claim_C3_amended trojanDemoInput).2.1 ⟨⟨"8.8.8.8", 53⟩, []⟩ (by rfl)

/-- C10: an empty (absent) early-data header yields neither an error
nor an early-data buffer, so no synthetic first chunk is enqueued and
the session proceeds with the WebSocket messages alone: absence of
early data is never treated as a decode failure. -/
theorem claim_C10_empty_early_data :
    base64ToArrayBuffer "" = ⟨none, none⟩ ∧
    ∀ msgs : List Chunk, makeReadableWebSocketStream "" msgs = .chunks msgs :=
  ⟨rfl, fun _ => rfl⟩

end Vortex

